import Mathlib

/-!
Verification of the sdlc_metrics repository core components against its
specification: the backoff executor (scripts/utilities.py), the paginated
fetchers (scripts/jira_ic_to_gsheet.py, scripts/jira_cycle_time_to_gsheet.py,
scripts/eng_metrics_to_gsheet.py, scripts/semaphoreci_to_gsheet.py), the
stage-ordered cycle-time calculator (scripts/jira_cycle_time_to_gsheet.py)
and the tabular upsert sink (scripts/jira_cycle_time_to_gsheet.py).
Python functions are shallowly embedded as total Lean functions; exceptions
become explicit error values, unbounded while-loops take a fuel argument,
and wall-clock sleeps are recorded as data instead of performed.
-/

namespace SdlcMetrics

/-- Kinds of Python exceptions raised by the scripts.  In Python every one of
these classes is a subclass of the base class Exception. -/
inductive PyExc where
  | requestException (msg : String)
  | valueError (msg : String)
  | typeError (msg : String)
  | keyError (k : String)
  | apiError (msg : String)
  | other (name : String)
deriving DecidableEq, Repr

/-- Check for the ValueError kind (the kind raised by response.json() on a
body that does not parse, and by list.index on a missing element). -/
def PyExc.isValueError : PyExc → Bool
  | .valueError _ => true
  | _ => false

/-! ### Backoff executor: utilities.py, function backoff -/

/-- Observable outcome of one call to the backoff wrapper.  The Python
function either returns the wrapped function's value, re-raises an
exception, or (when max_retries is 0, so the for-loop body never runs)
falls off the end and returns None. -/
inductive BackoffOutcome (α : Type) where
  | value (a : α)
  | raised (e : PyExc)
  | noneResult
deriving DecidableEq, Repr

/-- Result of running the backoff wrapper, together with observable
side-effect counters: how many times the wrapped function was invoked and
how many times time.sleep was executed. -/
structure BackoffTrace (α : Type) where
  outcome : BackoffOutcome α
  calls : Nat
  sleeps : Nat
deriving DecidableEq, Repr

/-- Loop body of utilities.backoff.  The Python loop is
for retry_count in range(max_retries), so the remaining iteration count is
max_retries - retry_count and is used as the structural fuel.  The wrapped
function is modelled as a map from the attempt index to a result, so that a
flaky operation can fail on some attempts and succeed on others.  The
exceptions parameter is the matchable-failure-set: the except clause catches
an error exactly when its kind satisfies this predicate; an uncaught error
propagates at once.  On a caught error, when retry_count >= max_retries - 1
the original error is re-raised, otherwise the loop sleeps and retries. -/
def backoffAux {α : Type} (function : Nat → Except PyExc α)
    (exceptions : PyExc → Bool) (max_retries : Nat) :
    Nat → Nat → BackoffTrace α
  | _, 0 => ⟨.noneResult, 0, 0⟩
  | retry_count, remaining + 1 =>
    match function retry_count with
    | .ok a => ⟨.value a, 1, 0⟩
    | .error e =>
      if exceptions e then
        if max_retries - 1 ≤ retry_count then ⟨.raised e, 1, 0⟩
        else
          let t := backoffAux function exceptions max_retries (retry_count + 1) remaining
          ⟨t.outcome, t.calls + 1, t.sleeps + 1⟩
      else ⟨.raised e, 1, 0⟩

/-- Model of utilities.backoff: run the loop from retry_count 0 with
max_retries iterations available. -/
def backoff {α : Type} (function : Nat → Except PyExc α)
    (exceptions : PyExc → Bool) (max_retries : Nat) : BackoffTrace α :=
  backoffAux function exceptions max_retries 0 max_retries

/-- Default of the max_retries parameter of utilities.backoff. -/
def backoff_max_retries_default : Nat := 15

/-- Default of the exceptions parameter of utilities.backoff: the Python
default is the base class Exception, and every raised exception kind is an
instance of it, so the default matchable-failure-set is the set of all
failures. -/
def backoff_exceptions_default : PyExc → Bool := fun _ => true

/-- Model of zoom_to_gsheet.make_request: it wraps requests.get in backoff
without passing sleep_time, max_retries or exceptions, so all three keep
their defaults. -/
def make_request {α : Type} (request_get : Nat → Except PyExc α) : BackoffTrace α :=
  backoff request_get backoff_exceptions_default backoff_max_retries_default

/-- On an operation that fails with a matchable error on every attempt, the
loop starting at any retry_count performs exactly its remaining iterations,
re-raising the error of the final attempt and sleeping once per non-final
attempt. -/
lemma backoffAux_always_fail {α : Type} (function : Nat → Except PyExc α)
    (exceptions : PyExc → Bool) (errf : Nat → PyExc) (max_retries : Nat)
    (hfail : ∀ n, function n = .error (errf n))
    (hmatch : ∀ n, exceptions (errf n) = true) :
    ∀ remaining retry_count, 1 ≤ remaining → retry_count + remaining = max_retries →
      backoffAux function exceptions max_retries retry_count remaining =
        ⟨.raised (errf (max_retries - 1)), remaining, remaining - 1⟩ := by
  intro remaining
  induction remaining with
  | zero => intro _ h; omega
  | succ rem ih =>
    intro retry_count _ htot
    rw [backoffAux, hfail retry_count]
    simp only [hmatch retry_count, if_true]
    by_cases hlast : max_retries - 1 ≤ retry_count
    · have hrem : rem = 0 := by omega
      have hrc : retry_count = max_retries - 1 := by omega
      subst hrem hrc
      simp
    · have hrem1 : 1 ≤ rem := by omega
      rw [if_neg hlast, ih (retry_count + 1) hrem1 (by omega)]
      simp only [BackoffTrace.mk.injEq, true_and]
      omega

/-- Claim C3: for every max_attempts at least 1, an operation failing on
every invocation with a matchable failure is invoked by the backoff
executor exactly max_attempts times, after which the failure of the final
attempt is re-raised to the caller instead of being retried; the default
max_attempts is 15 and the bound is a per-call-site parameter. -/
theorem C3_retry_budget {α : Type} (function : Nat → Except PyExc α)
    (exceptions : PyExc → Bool) (errf : Nat → PyExc) (max_retries : Nat)
    (hmax : 1 ≤ max_retries)
    (hfail : ∀ n, function n = .error (errf n))
    (hmatch : ∀ n, exceptions (errf n) = true) :
    (backoff function exceptions max_retries).calls = max_retries ∧
    (backoff function exceptions max_retries).outcome =
      .raised (errf (max_retries - 1)) ∧
    backoff_max_retries_default = 15 := by
  have h := backoffAux_always_fail function exceptions errf max_retries hfail hmatch
    max_retries 0 hmax (by omega)
  rw [backoff, h]
  exact ⟨rfl, rfl, rfl⟩

/-- Witness for C3: a concrete always-failing operation under a budget of 3
is invoked exactly 3 times and its failure is re-raised. -/
theorem C3_retry_budget_witness :
    (backoff (fun _ => (.error (PyExc.typeError "boom") : Except PyExc Nat))
      (fun _ => true) 3).calls = 3 ∧
    (backoff (fun _ => (.error (PyExc.typeError "boom") : Except PyExc Nat))
      (fun _ => true) 3).outcome = .raised (PyExc.typeError "boom") ∧
    backoff_max_retries_default = 15 :=
  C3_retry_budget (fun _ => .error (PyExc.typeError "boom")) (fun _ => true)
    (fun _ => PyExc.typeError "boom") 3 (by omega) (fun _ => rfl) (fun _ => rfl)

/-- Claim C9: when the first invocation raises a failure whose kind is not
in the matchable-failure-set, the backoff executor propagates it
immediately: the operation is invoked exactly once and zero sleeps are
performed. -/
theorem C9_nonmatchable_short_circuit {α : Type} (function : Nat → Except PyExc α)
    (exceptions : PyExc → Bool) (e : PyExc) (max_retries : Nat)
    (hmax : 1 ≤ max_retries)
    (hf : function 0 = .error e)
    (hm : exceptions e = false) :
    backoff function exceptions max_retries = ⟨.raised e, 1, 0⟩ := by
  obtain ⟨m, rfl⟩ : ∃ m, max_retries = m + 1 := ⟨max_retries - 1, by omega⟩
  rw [backoff, backoffAux, hf]
  simp [hm]

/-- Witness for C9: a concrete operation raising a non-matchable KeyError on
its first attempt propagates with one call and zero sleeps even under the
default budget of 15. -/
theorem C9_nonmatchable_short_circuit_witness :
    backoff (fun _ => (.error (PyExc.keyError "issues") : Except PyExc Nat))
      PyExc.isValueError 15 = ⟨.raised (PyExc.keyError "issues"), 1, 0⟩ :=
  C9_nonmatchable_short_circuit (fun _ => .error (PyExc.keyError "issues"))
    PyExc.isValueError (PyExc.keyError "issues") 15 (by omega) rfl rfl

/-- Claim C10: the default matchable-failure-set of the backoff wrapper is
every failure (the base Exception kind), so with the defaults any error
raised by the wrapped operation, including programming errors such as
TypeError or KeyError, is retried up to the full budget of 15 invocations
with 14 sleeps instead of propagating on the first attempt; the Zoom HTTP
request wrapper make_request calls backoff with all defaults and so relies
on this catch-all behaviour. -/
theorem C10_default_catch_all :
    (∀ e : PyExc, backoff_exceptions_default e = true) ∧
    (∀ (α : Type) (function : Nat → Except PyExc α) (errf : Nat → PyExc),
      (∀ n, function n = .error (errf n)) →
      (backoff function backoff_exceptions_default backoff_max_retries_default).calls = 15 ∧
      (backoff function backoff_exceptions_default backoff_max_retries_default).sleeps = 14 ∧
      (backoff function backoff_exceptions_default backoff_max_retries_default).outcome =
        .raised (errf 14)) ∧
    (∀ (α : Type) (request_get : Nat → Except PyExc α),
      make_request request_get =
        backoff request_get backoff_exceptions_default backoff_max_retries_default) := by
  refine ⟨fun _ => rfl, ?_, fun _ _ => rfl⟩
  intro α function errf hfail
  have h := backoffAux_always_fail function backoff_exceptions_default errf
    backoff_max_retries_default hfail (fun _ => rfl) 15 0 (by omega) (by rfl)
  rw [backoff, backoff_max_retries_default] at *
  rw [h]
  exact ⟨rfl, rfl, rfl⟩

/-- Witness for C10: a request wrapper whose underlying operation always
raises a TypeError is, under the defaults used by make_request, invoked 15
times with 14 sleeps before the TypeError is re-raised. -/
theorem C10_default_catch_all_witness :
    (make_request (fun _ => (.error (PyExc.typeError "bad arg") : Except PyExc Nat))).calls = 15 ∧
    (make_request (fun _ => (.error (PyExc.typeError "bad arg") : Except PyExc Nat))).sleeps = 14 := by
  have h := C10_default_catch_all.2.1 Nat
    (fun _ => .error (PyExc.typeError "bad arg"))
    (fun _ => PyExc.typeError "bad arg") (fun _ => rfl)
  exact ⟨h.1, h.2.1⟩

/-! ### Offset/limit pagination: jira_ic_to_gsheet.py get_issues,
jira_cycle_time_to_gsheet.py get_issues, eng_metrics_to_gsheet.py
get_issue_count.

Each loop requests the search endpoint at the current startAt offset.  The
network and JSON layer is modelled as a map from the offset to either the
parsed issues list of that page or the exception that reached the loop
body: a ValueError when the body does not parse as JSON, or the request
exception re-raised once the backoff wrapper is exhausted. -/

/-- Result of a fetch loop: a normal return carrying the accumulated
records and the number of page requests made, an uncaught exception, or
fuel exhaustion (the Python loop has no fuel bound and would keep going). -/
inductive FetchResult (α : Type) where
  | done (records : List α) (pages : Nat)
  | raised (e : PyExc) (pages : Nat)
  | outOfFuel
deriving DecidableEq, Repr

/-- Python module-level name lookup: reading a name the module never
assigns raises NameError. -/
def lookup_global (globals : List (String × String)) (name : String) :
    Except PyExc String :=
  match globals.find? (fun kv => kv.1 == name) with
  | some kv => .ok kv.2
  | none => .error (.other ("NameError: name " ++ name ++ " is not defined"))

/-- The string-valued module globals of jira_ic_to_gsheet.py.  The module
assigns only SYNC_CONFIG at module level and imports some helpers; in
particular URL, which get_issues reads at line 95 when building the
search URL, is never assigned anywhere in the module (unlike its sibling
jira_cycle_time_to_gsheet.py, which sets URL from the ATLASSIAN_URL
environment variable). -/
def jira_ic_module_globals : List (String × String) := []

/-- Loop of jira_ic_to_gsheet.get_issues.  Each iteration first evaluates
the jira_url f-string (lines 94-99), which reads the module global URL:
that lookup happens at the top of every iteration, outside the try block,
and raises NameError because the module never assigns URL.  Were a page
fetched, the loop would extend all_issues with the page's issues, stop
when the page holds fewer than max_results issues, and otherwise advance
startAt by max_results; the except ValueError clause turns a parse
failure into a plain return of an empty list, and any other exception
propagates. -/
def jira_ic_get_issues_loop {α : Type} (api : Nat → Except PyExc (List α))
    (max_results : Nat) : Nat → Nat → List α → Nat → FetchResult α
  | 0, _, _, _ => .outOfFuel
  | fuel + 1, start_at, all_issues, pages =>
    match lookup_global jira_ic_module_globals "URL" with
    | .error e => .raised e pages
    | .ok _ =>
      match api start_at with
      | .error e =>
        if e.isValueError then .done [] (pages + 1) else .raised e (pages + 1)
      | .ok issues =>
        let all_issues := all_issues ++ issues
        if issues.length < max_results then .done all_issues (pages + 1)
        else jira_ic_get_issues_loop api max_results fuel (start_at + max_results)
          all_issues (pages + 1)

/-- Model of jira_ic_to_gsheet.get_issues: run the loop from offset 0 with
an empty accumulator.  The final line of the source, returning all_issues
if it is non-empty and an empty list otherwise, is the identity on lists
and is omitted. -/
def jira_ic_get_issues {α : Type} (api : Nat → Except PyExc (List α))
    (max_results fuel : Nat) : FetchResult α :=
  jira_ic_get_issues_loop api max_results fuel 0 [] 0

/-- Per-page body of the for-loop of jira_cycle_time_to_gsheet.get_issues:
fetch the detail record of every issue of the page in order; the first
failure aborts the whole page. -/
def fetch_details {α β : Type} (details : α → Except PyExc β) :
    List α → Except PyExc (List β)
  | [] => .ok []
  | issue :: rest =>
    match details issue with
    | .error e => .error e
    | .ok d =>
      match fetch_details details rest with
      | .error e => .error e
      | .ok ds => .ok (d :: ds)

/-- Loop of jira_cycle_time_to_gsheet.get_issues.  It differs from the
jira_ic variant in fetching, per issue of the page, the issue details with
changelog (modelled by the details map, which can itself raise), and in
appending those details to all_issues.  A ValueError raised anywhere in the
try block, by the page fetch or by a detail fetch, is caught and turns the
whole call into a plain return of an empty list, discarding every
previously accumulated page. -/
def jira_ct_get_issues_loop {α β : Type} (api : Nat → Except PyExc (List α))
    (details : α → Except PyExc β) (max_results : Nat) :
    Nat → Nat → List β → Nat → FetchResult β
  | 0, _, _, _ => .outOfFuel
  | fuel + 1, start_at, all_issues, pages =>
    match api start_at with
    | .error e =>
      if e.isValueError then .done [] (pages + 1) else .raised e (pages + 1)
    | .ok issues =>
      match fetch_details details issues with
      | .error e =>
        if e.isValueError then .done [] (pages + 1) else .raised e (pages + 1)
      | .ok issue_details =>
        let all_issues := all_issues ++ issue_details
        if issues.length < max_results then .done all_issues (pages + 1)
        else jira_ct_get_issues_loop api details max_results fuel
          (start_at + max_results) all_issues (pages + 1)

/-- Model of jira_cycle_time_to_gsheet.get_issues from offset 0. -/
def jira_ct_get_issues {α β : Type} (api : Nat → Except PyExc (List α))
    (details : α → Except PyExc β) (max_results fuel : Nat) : FetchResult β :=
  jira_ct_get_issues_loop api details max_results fuel 0 [] 0

/-- Result of eng_metrics_to_gsheet.get_issue_count. -/
inductive CountResult where
  | count (n : Nat)
  | raised (e : PyExc)
  | outOfFuel
deriving DecidableEq, Repr

/-- Loop of eng_metrics_to_gsheet.get_issue_count.  It accumulates the
number of issues per page; on a ValueError it returns the count accumulated
so far rather than an empty result. -/
def get_issue_count_loop {α : Type} (api : Nat → Except PyExc (List α))
    (max_results : Nat) : Nat → Nat → Nat → CountResult
  | 0, _, _ => .outOfFuel
  | fuel + 1, start_at, count =>
    match api start_at with
    | .error e => if e.isValueError then .count count else .raised e
    | .ok issues =>
      let count := count + issues.length
      if issues.length < max_results then .count count
      else get_issue_count_loop api max_results fuel (start_at + max_results) count

/-- Model of eng_metrics_to_gsheet.get_issue_count from offset 0. -/
def get_issue_count {α : Type} (api : Nat → Except PyExc (List α))
    (max_results fuel : Nat) : CountResult :=
  get_issue_count_loop api max_results fuel 0 0

/-- Synthetic offset API for the pagination property: a collection of 340
records served in pages of the requested size, so the pages have sizes
100, 100, 100 and 40. -/
def syntheticApi : Nat → Except PyExc (List Nat) :=
  fun start_at => .ok (((List.range 340).drop start_at).take 100)

/-- Claim C4 (refuted by the code): jira_ic_to_gsheet.get_issues can never
page through results, whatever the API would answer: the module global URL
read by the jira_url f-string is never assigned in the module, so every
call raises NameError on the first loop iteration, before the first page
request, instead of returning the pages' records.  The offset scheme
itself is the evident intent and is implemented by the claim's other cited
symbol, eng_metrics_to_gsheet.get_issue_count, which on the synthetic API
of pages 100, 100, 100 and 40 with page size 100 accumulates the full
count of 340 and needs exactly 4 loop iterations, terminating on the short
4th page. -/
theorem C4_pagination_url_undefined :
    (∀ (α : Type) (api : Nat → Except PyExc (List α)) (max_results fuel : Nat),
      jira_ic_get_issues api max_results (fuel + 1) =
        .raised (PyExc.other "NameError: name URL is not defined") 0) ∧
    get_issue_count syntheticApi 100 4 = .count 340 ∧
    get_issue_count syntheticApi 100 3 = .outOfFuel := by
  refine ⟨fun α api max_results fuel => rfl, ?_, ?_⟩
  · set_option maxRecDepth 10000 in decide
  · set_option maxRecDepth 10000 in decide

/-- Fetching details with an everywhere-successful detail map yields the
mapped list. -/
lemma fetch_details_ok {α β : Type} (g : α → β) :
    ∀ l : List α, fetch_details (fun a => (Except.ok (g a) : Except PyExc β)) l = .ok (l.map g) := by
  intro l
  induction l with
  | nil => rfl
  | cons a t ih => rw [fetch_details, ih]; rfl

/-- Concrete API for the C6 counterexample: the first page parses and is
full (two issues with page size two), the second page's body does not parse
as JSON, so the loop body sees a ValueError. -/
def C6cexApi : Nat → Except PyExc (List Nat) := fun start_at =>
  if start_at = 0 then .ok [1, 2] else .error (.valueError "Expecting value")

/-- Counterexample to claim C6 as stated: on an API whose first page parses
(two records, full) and whose second page cannot be parsed, the
jira_cycle_time get_issues returns a normal empty list: the failure is not
surfaced to the caller as an error, and the previously accumulated valid
page is discarded rather than returned. -/
theorem C6_surfacing_counterexample :
    jira_ct_get_issues C6cexApi (fun a => (.ok a : Except PyExc Nat)) 2 10 =
      .done [] 2 ∧
    FetchResult.done ([] : List Nat) 2 ≠ .done [1, 2] 2 ∧
    FetchResult.done ([] : List Nat) 2 ≠ .raised (.valueError "Expecting value") 2 := by
  refine ⟨?_, by decide, by decide⟩
  rfl

/-- Claim C6 (amended): when a page cannot be parsed, the error is caught,
not surfaced: eng_metrics get_issue_count returns the count accumulated so
far (explicit accumulated-so-far semantics), while jira_cycle_time
get_issues returns an empty list, discarding previously accumulated pages;
failures other than parse errors (for example a request failure re-raised
after retry exhaustion) are surfaced to the caller. -/
theorem C6_parse_error_handling :
    (∀ (α β : Type) (api : Nat → Except PyExc (List α)) (g : α → β)
        (max_results fuel : Nat) (p1 : List α) (msg : String),
      api 0 = .ok p1 →
      p1.length = max_results →
      api max_results = .error (.valueError msg) →
      jira_ct_get_issues api (fun a => .ok (g a)) max_results (fuel + 2) =
        .done [] 2) ∧
    (∀ (α : Type) (api : Nat → Except PyExc (List α))
        (max_results fuel : Nat) (p1 : List α) (msg : String),
      api 0 = .ok p1 →
      p1.length = max_results →
      api max_results = .error (.valueError msg) →
      get_issue_count api max_results (fuel + 2) = .count p1.length) ∧
    (∀ (α β : Type) (api : Nat → Except PyExc (List α)) (g : α → β)
        (max_results fuel : Nat) (e : PyExc),
      api 0 = .error e →
      e.isValueError = false →
      jira_ct_get_issues api (fun a => .ok (g a)) max_results (fuel + 1) =
        .raised e 1 ∧
      get_issue_count api max_results (fuel + 1) = .raised e) := by
  refine ⟨?_, ?_, ?_⟩
  · intro α β api g max_results fuel p1 msg h0 hlen h1
    have hnotlt : ¬ p1.length < max_results := by omega
    rw [jira_ct_get_issues, jira_ct_get_issues_loop]
    simp only [h0, fetch_details_ok, hnotlt, if_false]
    rw [jira_ct_get_issues_loop]
    simp only [Nat.zero_add, h1]
    simp [PyExc.isValueError]
  · intro α api max_results fuel p1 msg h0 hlen h1
    have hnotlt : ¬ p1.length < max_results := by omega
    rw [get_issue_count, get_issue_count_loop]
    simp only [h0, hnotlt, if_false]
    rw [get_issue_count_loop]
    simp only [Nat.zero_add, h1]
    simp [PyExc.isValueError]
  · intro α β api g max_results fuel e h0 he
    constructor
    · rw [jira_ct_get_issues, jira_ct_get_issues_loop]
      simp [h0, he]
    · rw [get_issue_count, get_issue_count_loop]
      simp [h0, he]

/-- Witness for the amended C6: on the concrete counterexample API the
count accumulator preserves the two records of the first page, and a
non-parse error on the first page is surfaced by both loops. -/
theorem C6_parse_error_handling_witness :
    get_issue_count C6cexApi 2 10 = .count 2 ∧
    jira_ct_get_issues (fun _ => (.error (PyExc.requestException "timeout") :
        Except PyExc (List Nat))) (fun a => (.ok a : Except PyExc Nat)) 2 10 =
      .raised (PyExc.requestException "timeout") 1 ∧
    get_issue_count (fun _ => (.error (PyExc.requestException "timeout") :
        Except PyExc (List Nat))) 2 10 = .raised (PyExc.requestException "timeout") := by
  have h1 := C6_parse_error_handling.2.1 Nat C6cexApi 2 8 [1, 2] "Expecting value"
    rfl rfl rfl
  have h2 := C6_parse_error_handling.2.2 Nat Nat
    (fun _ => .error (PyExc.requestException "timeout")) (fun a => a) 2 9
    (PyExc.requestException "timeout") rfl rfl
  exact ⟨h1, by simpa using h2.1, h2.2⟩

/-! ### Rate-limit handling: semaphoreci_to_gsheet.py handle_rate_limiting
and get_pipelines -/

/-- Shape of an HTTP response as seen by the Semaphore fetcher: the status
code, the parsed Retry-After header if present, the parsed JSON body (a
list of pipelines), and the link header: none when the header is absent,
some none when it is present but carries no rel-next entry, and
some (some u) when it carries the next-page URL u. -/
structure SemaphoreResponse (α : Type) where
  status : Nat
  retryAfter : Option Nat
  body : List α
  linkHeader : Option (Option String)

/-- Model of semaphoreci_to_gsheet.handle_rate_limiting: on status 429 it
sleeps for the Retry-After duration, or 1 second when the header is
absent, and reports true; otherwise it sleeps never and reports false.
The boolean is the return value, the list records the sleeps performed. -/
def handle_rate_limiting {α : Type} (response : SemaphoreResponse α) : Bool × List Nat :=
  if response.status = 429 then
    match response.retryAfter with
    | some retry_after => (true, [retry_after])
    | none => (true, [1])
  else (false, [])

/-- Observable result of get_pipelines: the accumulated pipelines, the URLs
requested in order, and the sleep durations performed in order. -/
structure PipelineFetch (α : Type) where
  pipelines : List α
  requests : List String
  sleeps : List Nat
deriving DecidableEq, Repr

/-- Loop of semaphoreci_to_gsheet.get_pipelines.  The HTTP layer is a map
from the request URL and the global request counter to a response, so the
same URL can answer 429 first and 200 later.  On a rate-limited response
the loop continues with the URL unchanged and without touching the body;
otherwise it extends the accumulator with the parsed body and follows the
rel-next link if one is present, stopping otherwise.  The function invokes
no backoff wrapper anywhere, so rate-limit pauses cannot consume backoff
attempts. -/
def get_pipelines_loop {α : Type} (http : String → Nat → SemaphoreResponse α) :
    Nat → String → Nat → List α → List String → List Nat → Option (PipelineFetch α)
  | 0, _, _, _, _, _ => none
  | fuel + 1, pipelines_url, step, pipelines, reqs, slps =>
    let response := http pipelines_url step
    match handle_rate_limiting response with
    | (true, paused) =>
      get_pipelines_loop http fuel pipelines_url (step + 1) pipelines
        (reqs ++ [pipelines_url]) (slps ++ paused)
    | (false, paused) =>
      let pipelines := pipelines ++ response.body
      match response.linkHeader with
      | none => some ⟨pipelines, reqs ++ [pipelines_url], slps ++ paused⟩
      | some none => some ⟨pipelines, reqs ++ [pipelines_url], slps ++ paused⟩
      | some (some next_url) =>
        get_pipelines_loop http fuel next_url (step + 1) pipelines
          (reqs ++ [pipelines_url]) (slps ++ paused)

/-- Model of semaphoreci_to_gsheet.get_pipelines starting from the
pipelines URL built for the project and month. -/
def get_pipelines {α : Type} (http : String → Nat → SemaphoreResponse α)
    (pipelines_url : String) (fuel : Nat) : Option (PipelineFetch α) :=
  get_pipelines_loop http fuel pipelines_url 0 [] [] []

/-- On status 429 the handler sleeps exactly once, for the Retry-After
duration or the default of 1 second. -/
lemma handle_rate_limiting_429 {α : Type} (response : SemaphoreResponse α)
    (h : response.status = 429) :
    handle_rate_limiting response = (true, [response.retryAfter.getD 1]) := by
  rw [handle_rate_limiting, if_pos h]
  cases response.retryAfter <;> rfl

/-- A run of k rate-limited responses on the same URL followed by a
success without a next link: the loop issues k + 1 requests to that URL,
sleeps the suggested durations in order, and returns the final body. -/
lemma get_pipelines_loop_rate_limited {α : Type}
    (http : String → Nat → SemaphoreResponse α) (url : String) :
    ∀ (k step fuel : Nat) (acc : List α) (reqs : List String) (slps : List Nat),
      (∀ i, i < k → (http url (step + i)).status = 429) →
      (http url (step + k)).status ≠ 429 →
      (http url (step + k)).linkHeader = none →
      k < fuel →
      get_pipelines_loop http fuel url step acc reqs slps =
        some ⟨acc ++ (http url (step + k)).body,
              reqs ++ List.replicate (k + 1) url,
              slps ++ (List.range k).map (fun i => ((http url (step + i)).retryAfter).getD 1)⟩ := by
  intro k
  induction k with
  | zero =>
    intro step fuel acc reqs slps _ hok hlink hfuel
    obtain ⟨f, rfl⟩ : ∃ f, fuel = f + 1 := ⟨fuel - 1, by omega⟩
    rw [get_pipelines_loop]
    have hhrl : handle_rate_limiting (http url step) = (false, []) := by
      rw [handle_rate_limiting, if_neg (by simpa using hok)]
    simp only [hhrl]
    simp only [Nat.add_zero] at hlink
    simp [hlink, Nat.add_zero]
  | succ k ih =>
    intro step fuel acc reqs slps h429 hok hlink hfuel
    obtain ⟨f, rfl⟩ : ∃ f, fuel = f + 1 := ⟨fuel - 1, by omega⟩
    rw [get_pipelines_loop]
    have h0 : (http url (step + 0)).status = 429 := h429 0 (by omega)
    simp only [Nat.add_zero] at h0
    have hhrl := handle_rate_limiting_429 (http url step) h0
    simp only [hhrl]
    have hrec := ih (step + 1) f acc (reqs ++ [url])
      (slps ++ [(http url step).retryAfter.getD 1])
      (fun i hi => by
        have := h429 (i + 1) (by omega)
        simpa [Nat.add_assoc, Nat.add_comm, Nat.add_left_comm] using this)
      (by
        have h1 : step + 1 + k = step + (k + 1) := by omega
        rw [h1]; exact hok)
      (by
        have h1 : step + 1 + k = step + (k + 1) := by omega
        rw [h1]; exact hlink)
      (by omega)
    rw [hrec]
    have hbody : step + 1 + k = step + (k + 1) := by omega
    have hreqs : (reqs ++ [url]) ++ List.replicate (k + 1) url =
        reqs ++ List.replicate (k + 2) url := by
      rw [List.append_assoc]
      rfl
    have hfun : ((fun i => ((http url (step + i)).retryAfter).getD 1) ∘ Nat.succ) =
        (fun i => ((http url (step + 1 + i)).retryAfter).getD 1) := by
      funext i
      show ((http url (step + Nat.succ i)).retryAfter).getD 1 =
        ((http url (step + 1 + i)).retryAfter).getD 1
      have h2 : step + Nat.succ i = step + 1 + i := by omega
      rw [h2]
    have hslps : (slps ++ [(http url step).retryAfter.getD 1]) ++
          (List.range k).map (fun i => ((http url (step + 1 + i)).retryAfter).getD 1) =
        slps ++ (List.range (k + 1)).map
          (fun i => ((http url (step + i)).retryAfter).getD 1) := by
      rw [List.append_assoc]
      congr 1
      rw [List.range_succ_eq_map, List.map_cons, List.map_map, hfun]
      simp
    rw [hbody, hreqs, hslps]

/-- Claim C5: whenever a page request receives status 429, the fetcher
sleeps for the server's Retry-After duration, or 1 second when none is
given, and re-issues the same page request with the URL unchanged; these
pauses are repeated for as many consecutive 429 responses as the server
sends, without any retry budget being consumed, since the fetcher invokes
no backoff wrapper. -/
theorem C5_rate_limit_pause :
    (∀ (α : Type) (response : SemaphoreResponse α),
      (response.status = 429 →
        handle_rate_limiting response = (true, [response.retryAfter.getD 1])) ∧
      (response.status ≠ 429 →
        handle_rate_limiting response = (false, []))) ∧
    (∀ (α : Type) (http : String → Nat → SemaphoreResponse α) (url : String)
        (k fuel : Nat),
      (∀ i, i < k → (http url i).status = 429) →
      (http url k).status ≠ 429 →
      (http url k).linkHeader = none →
      k < fuel →
      get_pipelines http url fuel =
        some ⟨(http url k).body, List.replicate (k + 1) url,
              (List.range k).map (fun i => ((http url i).retryAfter).getD 1)⟩) := by
  constructor
  · intro α response
    exact ⟨handle_rate_limiting_429 response,
      fun h => by rw [handle_rate_limiting, if_neg h]⟩
  · intro α http url k fuel h429 hok hlink hfuel
    have := get_pipelines_loop_rate_limited http url k 0 fuel [] [] []
      (fun i hi => by simpa using h429 i hi)
      (by simpa using hok) (by simpa using hlink) hfuel
    simpa [get_pipelines] using this

/-- Witness for C5: a server that answers 429 with Retry-After 7, then 429
without Retry-After, then 200 with an empty link header, makes the fetcher
request the same URL three times with sleeps of 7 and 1 seconds. -/
theorem C5_rate_limit_pause_witness :
    get_pipelines (fun _ step =>
      if step = 0 then (⟨429, some 7, [], none⟩ : SemaphoreResponse Nat)
      else if step = 1 then ⟨429, none, [], none⟩
      else ⟨200, none, [5, 6], none⟩) "u" 9 =
      some ⟨[5, 6], ["u", "u", "u"], [7, 1]⟩ := by
  have := C5_rate_limit_pause.2 Nat
    (fun _ step =>
      if step = 0 then (⟨429, some 7, [], none⟩ : SemaphoreResponse Nat)
      else if step = 1 then ⟨429, none, [], none⟩
      else ⟨200, none, [5, 6], none⟩) "u" 2 9
    (fun i hi => by
      have : i = 0 ∨ i = 1 := by omega
      rcases this with rfl | rfl <;> rfl)
    (by decide) (by rfl) (by omega)
  simpa using this

/-! ### Stage model and cycle-time calculator:
jira_cycle_time_to_gsheet.py STAGE_ORDER, get_cycle_time and
calculate_cycle_time.

Timestamps parsed by datetime.strptime are modelled as integer epoch
seconds; datetime subtraction followed by total_seconds() is then plain
integer subtraction, and the final division by 86400 is exact rational
division. -/

/-- The fixed stage order of jira_cycle_time_to_gsheet.py. -/
def STAGE_ORDER : List String :=
  ["Design Complete", "Backlog", "Triage", "Waiting for support", "Open",
   "Ready for Grooming", "Groomed", "In Progress", "In Review", "Review",
   "Merged", "Deploy", "In Test", "Awaiting Approval", "Closed", "Done",
   "Declined"]

/-- One item of a changelog record; toStr models the toString key holding
the name of the stage the issue transitioned to. -/
structure HistoryItem where
  field : String
  toStr : String
deriving DecidableEq, Repr

/-- One record of the changelog histories: its created timestamp and its
items.  A record without an items key behaves like one with no items. -/
structure HistoryRecord where
  created : Int
  items : List HistoryItem
deriving DecidableEq, Repr

/-- An issue as consumed by get_cycle_time: the parsed creation timestamp,
the parsed resolution timestamp (none when the field is null, as for an
unresolved issue), and the changelog histories in arrival order. -/
structure Issue where
  created : Int
  resolutiondate : Option Int
  histories : List HistoryRecord
deriving DecidableEq, Repr

/-- Model of STAGE_ORDER.index(stage): the position of the stage in the
stage order, or none where Python raises ValueError because the stage is
not in the list. -/
def stage_index (stage : String) : Option Nat := STAGE_ORDER.indexOf? stage

/-- Inner loop of get_cycle_time over the items of one changelog record,
threading the (start_time, end_time) pair.  Non-status items are skipped.
For a status item, Python first evaluates STAGE_ORDER.index on the item's
target stage and on start_stage (either raising ValueError), possibly
raises start_time, then evaluates STAGE_ORDER.index on end_stage, and
possibly lowers end_time. -/
def get_cycle_time_items (start_stage end_stage : String) (created_time : Int) :
    List HistoryItem → Int × Int → Except PyExc (Int × Int)
  | [], st => .ok st
  | item :: rest, st =>
    if item.field = "status" then
      match stage_index item.toStr with
      | none => .error (.valueError item.toStr)
      | some idx =>
        match stage_index start_stage with
        | none => .error (.valueError start_stage)
        | some start_idx =>
          let st1 := if idx ≤ start_idx then (max st.1 created_time, st.2) else st
          match stage_index end_stage with
          | none => .error (.valueError end_stage)
          | some end_idx =>
            let st2 := if end_idx ≤ idx then (st1.1, min st1.2 created_time) else st1
            get_cycle_time_items start_stage end_stage created_time rest st2
    else get_cycle_time_items start_stage end_stage created_time rest st

/-- Outer loop of get_cycle_time over the changelog records. -/
def get_cycle_time_histories (start_stage end_stage : String) :
    List HistoryRecord → Int × Int → Except PyExc (Int × Int)
  | [], st => .ok st
  | record :: rest, st =>
    match get_cycle_time_items start_stage end_stage record.created record.items st with
    | .error e => .error e
    | .ok st1 => get_cycle_time_histories start_stage end_stage rest st1

/-- Model of jira_cycle_time_to_gsheet.get_cycle_time.  start_time is
initialised from fields.created and end_time from fields.resolutiondate;
when resolutiondate is null, datetime.strptime(None, ...) raises a
TypeError before the loop runs.  The final value is
(end_time - start_time).total_seconds() / 86400, in fractional days. -/
def get_cycle_time (issue : Issue) (start_stage end_stage : String) :
    Except PyExc ℚ :=
  match issue.resolutiondate with
  | none => .error (.typeError "strptime() argument 1 must be str, not None")
  | some resolution =>
    match get_cycle_time_histories start_stage end_stage issue.histories
        (issue.created, resolution) with
    | .error e => .error e
    | .ok st => .ok (((st.2 - st.1 : Int) : ℚ) / 86400)

/-- The list comprehension of calculate_cycle_time: per-issue cycle times
in order; an exception from any issue aborts the whole computation. -/
def get_cycle_times (start_stage end_stage : String) :
    List Issue → Except PyExc (List ℚ)
  | [] => .ok []
  | issue :: rest =>
    match get_cycle_time issue start_stage end_stage with
    | .error e => .error e
    | .ok q =>
      match get_cycle_times start_stage end_stage rest with
      | .error e => .error e
      | .ok qs => .ok (q :: qs)

/-- Model of jira_cycle_time_to_gsheet.calculate_cycle_time: the mean of
the per-issue cycle times, or 0 for an empty list.  The source also
filters None values out of the comprehension's result, but get_cycle_time
returns a float or raises and never returns None, so that filter is the
identity and is omitted here. -/
def calculate_cycle_time (issues : List Issue) (start_stage end_stage : String) :
    Except PyExc ℚ :=
  match get_cycle_times start_stage end_stage issues with
  | .error e => .error e
  | .ok cycle_times =>
    .ok (if cycle_times.length = 0 then 0
         else cycle_times.sum / (cycle_times.length : ℚ))

/-- The worked example of the specification: created at day 0, transitions
to In Progress at day 4, back to Open at day 9, to Merged at day 19, and
resolved at day 24 (2024-01-01, -05, -10, -20, -25 as epoch offsets). -/
def exampleIssue : Issue :=
  ⟨0, some (24 * 86400),
   [⟨4 * 86400, [⟨"status", "In Progress"⟩]⟩,
    ⟨9 * 86400, [⟨"status", "Open"⟩]⟩,
    ⟨19 * 86400, [⟨"status", "Merged"⟩]⟩]⟩

/-- An issue whose resolutiondate field is null: the Jira shape of an
unresolved issue. -/
def unresolvedIssue : Issue := ⟨0, none, []⟩

/-- Claim C7 (refuted by the code): an entity without a resolution
timestamp is not excluded from the cycle-time calculation; instead
get_cycle_time raises a TypeError from strptime(None), and the aggregate
calculation over any list containing such an entity fails rather than
averaging the remaining entities.  The dead None-filter inside
calculate_cycle_time documents the exclusion intent of the claim. -/
theorem C7_unresolved_entity_not_excluded :
    get_cycle_time unresolvedIssue "Open" "Merged" =
      .error (.typeError "strptime() argument 1 must be str, not None") ∧
    calculate_cycle_time [unresolvedIssue] "Open" "Merged" =
      .error (.typeError "strptime() argument 1 must be str, not None") ∧
    calculate_cycle_time [exampleIssue, unresolvedIssue] "Open" "Merged" =
      .error (.typeError "strptime() argument 1 must be str, not None") := by
  refine ⟨rfl, rfl, ?_⟩
  rfl

/-- All (timestamp, target-stage) transition events of an issue, in
arrival order: the status items of each changelog record paired with the
record's created timestamp. -/
def status_events (issue : Issue) : List (Int × String) :=
  (issue.histories.map (fun record =>
    (record.items.filter (fun item => item.field = "status")).map
      (fun item => (record.created, item.toStr)))).flatten

/-- Modelled from the spec words of the claim: the candidate start
boundaries, the timestamps of the transitions whose stage has order index
at most that of the start stage. -/
def start_candidates (events : List (Int × String)) (start_idx : Nat) : List Int :=
  events.filterMap (fun p =>
    match stage_index p.2 with
    | some idx => if idx ≤ start_idx then some p.1 else none
    | none => none)

/-- Modelled from the spec words of the claim: the candidate end
boundaries, the timestamps of the transitions whose stage has order index
at least that of the end stage. -/
def end_candidates (events : List (Int × String)) (end_idx : Nat) : List Int :=
  events.filterMap (fun p =>
    match stage_index p.2 with
    | some idx => if end_idx ≤ idx then some p.1 else none
    | none => none)

/-- The start boundary per the claim: the maximum of the creation
timestamp and every candidate start boundary. -/
def spec_start_time (issue : Issue) (start_idx : Nat) : Int :=
  (start_candidates (status_events issue) start_idx).foldl max issue.created

/-- The end boundary per the claim: the minimum of the resolution
timestamp and every candidate end boundary. -/
def spec_end_time (issue : Issue) (resolution : Int) (end_idx : Nat) : Int :=
  (end_candidates (status_events issue) end_idx).foldl min resolution

/-- Pure effect of one transition event, already resolved to its stage
index, on the (start_time, end_time) pair. -/
def bound_step (start_idx end_idx : Nat) (st : Int × Int) (p : Int × Nat) : Int × Int :=
  let st1 := if p.2 ≤ start_idx then (max st.1 p.1, st.2) else st
  if end_idx ≤ p.2 then (st1.1, min st1.2 p.1) else st1

/-- The status events of one record's item list, resolved to stage
indices; items with an unknown stage are dropped (the fold lemmas below
are only applied when there are none). -/
def items_events (created_time : Int) (items : List HistoryItem) : List (Int × Nat) :=
  items.filterMap (fun item =>
    if item.field = "status" then
      (stage_index item.toStr).map (fun idx => (created_time, idx))
    else none)

/-- The status events of a whole changelog, resolved to stage indices. -/
def histories_events (histories : List HistoryRecord) : List (Int × Nat) :=
  (histories.map (fun record => items_events record.created record.items)).flatten

/-- Transition events resolved to stage indices, dropping unknown
stages. -/
def indexed_events (events : List (Int × String)) : List (Int × Nat) :=
  events.filterMap (fun p => (stage_index p.2).map (fun idx => (p.1, idx)))

/-- Membership in a list of strings coincides with indexOf? succeeding. -/
lemma indexOf?_isSome_iff_mem (l : List String) (a : String) :
    (l.indexOf? a).isSome ↔ a ∈ l := by
  induction l with
  | nil => simp
  | cons b t ih =>
    by_cases hba : b = a
    · subst hba
      simp [List.indexOf?_cons]
    · have hbeq : (b == a) = false := by simpa using hba
      have hab : ¬ a = b := fun h => hba h.symm
      simp [List.indexOf?_cons, hbeq, hab, ih]

/-- On a record whose status items all name known stages, the item loop
succeeds and computes the pure fold of the record's indexed events. -/
lemma get_cycle_time_items_ok (start_stage end_stage : String)
    (start_idx end_idx : Nat)
    (hss : stage_index start_stage = some start_idx)
    (hes : stage_index end_stage = some end_idx) (created_time : Int) :
    ∀ (items : List HistoryItem) (st : Int × Int),
      (∀ item ∈ items, item.field = "status" → (stage_index item.toStr).isSome) →
      get_cycle_time_items start_stage end_stage created_time items st =
        .ok ((items_events created_time items).foldl (bound_step start_idx end_idx) st) := by
  intro items
  induction items with
  | nil => intro st _; rfl
  | cons item rest ih =>
    intro st hval
    by_cases hfield : item.field = "status"
    · obtain ⟨idx, hidx⟩ : ∃ idx, stage_index item.toStr = some idx := by
        have := hval item (by simp) hfield
        exact Option.isSome_iff_exists.mp this
      rw [get_cycle_time_items, if_pos hfield]
      simp only [hidx, hss, hes]
      rw [ih _ (fun i hi hf => hval i (by simp [hi]) hf)]
      have hev : items_events created_time (item :: rest) =
          (created_time, idx) :: items_events created_time rest := by
        rw [items_events, List.filterMap_cons]
        simp [hfield, hidx, items_events]
      rw [hev, List.foldl_cons]
      rfl
    · rw [get_cycle_time_items, if_neg hfield,
        ih _ (fun i hi hf => hval i (by simp [hi]) hf)]
      have hev : items_events created_time (item :: rest) =
          items_events created_time rest := by
        rw [items_events, List.filterMap_cons]
        simp [hfield, items_events]
      rw [hev]

/-- On a changelog whose status items all name known stages, the record
loop succeeds and computes the pure fold of the indexed events. -/
lemma get_cycle_time_histories_ok (start_stage end_stage : String)
    (start_idx end_idx : Nat)
    (hss : stage_index start_stage = some start_idx)
    (hes : stage_index end_stage = some end_idx) :
    ∀ (histories : List HistoryRecord) (st : Int × Int),
      (∀ record ∈ histories, ∀ item ∈ record.items,
        item.field = "status" → (stage_index item.toStr).isSome) →
      get_cycle_time_histories start_stage end_stage histories st =
        .ok ((histories_events histories).foldl (bound_step start_idx end_idx) st) := by
  intro histories
  induction histories with
  | nil => intro st _; rfl
  | cons record rest ih =>
    intro st hval
    have hitems := get_cycle_time_items_ok start_stage end_stage start_idx end_idx
      hss hes record.created record.items st (hval record (by simp))
    rw [get_cycle_time_histories]
    simp only [hitems]
    rw [ih _ (fun r hr => hval r (by simp [hr]))]
    have hev : histories_events (record :: rest) =
        items_events record.created record.items ++ histories_events rest := by
      rw [histories_events, List.map_cons, List.flatten_cons]
      rfl
    rw [hev, List.foldl_append]

/-- The first component of the pure fold is the running maximum of the
start candidates. -/
lemma bound_step_foldl_fst (start_idx end_idx : Nat) :
    ∀ (events : List (Int × Nat)) (st : Int × Int),
      ((events.foldl (bound_step start_idx end_idx) st).1 : Int) =
        (events.filterMap (fun p => if p.2 ≤ start_idx then some p.1 else none)).foldl
          max st.1 := by
  intro events
  induction events with
  | nil => intro st; rfl
  | cons p rest ih =>
    intro st
    rw [List.foldl_cons, ih, List.filterMap_cons]
    by_cases h1 : p.2 ≤ start_idx <;> by_cases h2 : end_idx ≤ p.2 <;>
      simp [bound_step, h1, h2]

/-- The second component of the pure fold is the running minimum of the
end candidates. -/
lemma bound_step_foldl_snd (start_idx end_idx : Nat) :
    ∀ (events : List (Int × Nat)) (st : Int × Int),
      ((events.foldl (bound_step start_idx end_idx) st).2 : Int) =
        (events.filterMap (fun p => if end_idx ≤ p.2 then some p.1 else none)).foldl
          min st.2 := by
  intro events
  induction events with
  | nil => intro st; rfl
  | cons p rest ih =>
    intro st
    rw [List.foldl_cons, ih, List.filterMap_cons]
    by_cases h1 : p.2 ≤ start_idx <;> by_cases h2 : end_idx ≤ p.2 <;>
      simp [bound_step, h1, h2]

/-- The string-level start candidates coincide with the index-level filter
over the indexed events. -/
lemma start_candidates_eq (events : List (Int × String)) (start_idx : Nat) :
    start_candidates events start_idx =
      (indexed_events events).filterMap
        (fun p => if p.2 ≤ start_idx then some p.1 else none) := by
  induction events with
  | nil => rfl
  | cons p rest ih =>
    rw [start_candidates, List.filterMap_cons, indexed_events, List.filterMap_cons]
    cases hidx : stage_index p.2 with
    | none => simpa [hidx, start_candidates, indexed_events] using ih
    | some idx =>
      by_cases h1 : idx ≤ start_idx <;>
        simpa [hidx, h1, start_candidates, indexed_events, List.filterMap_cons] using ih

/-- The string-level end candidates coincide with the index-level filter
over the indexed events. -/
lemma end_candidates_eq (events : List (Int × String)) (end_idx : Nat) :
    end_candidates events end_idx =
      (indexed_events events).filterMap
        (fun p => if end_idx ≤ p.2 then some p.1 else none) := by
  induction events with
  | nil => rfl
  | cons p rest ih =>
    rw [end_candidates, List.filterMap_cons, indexed_events, List.filterMap_cons]
    cases hidx : stage_index p.2 with
    | none => simpa [hidx, end_candidates, indexed_events] using ih
    | some idx =>
      by_cases h1 : end_idx ≤ idx <;>
        simpa [hidx, h1, end_candidates, indexed_events, List.filterMap_cons] using ih

/-- The indexed events of an issue's status events are the indexed events
of its changelog. -/
lemma indexed_events_status_events (issue : Issue) :
    indexed_events (status_events issue) = histories_events issue.histories := by
  rw [status_events, histories_events]
  induction issue.histories with
  | nil => rfl
  | cons record rest ih =>
    rw [List.map_cons, List.flatten_cons, List.map_cons, List.flatten_cons,
      indexed_events, List.filterMap_append]
    rw [indexed_events] at ih
    rw [ih]
    congr 1
    rw [items_events]
    induction record.items with
    | nil => rfl
    | cons item irest iih =>
      rw [List.filterMap_cons]
      by_cases hfield : item.field = "status"
      · cases hidx : stage_index item.toStr with
        | none =>
          simpa [hfield, hidx, List.filterMap_cons] using iih
        | some idx =>
          simpa [hfield, hidx, List.filterMap_cons] using iih
      · simpa [hfield, List.filterMap_cons] using iih

/-- Claim C1: for every entity timeline whose transition stages are all
members of the stage order (and with a resolution timestamp and valid
configured stages), get_cycle_time returns (end_time - start_time) in
fractional days, where start_time is the maximum of the creation timestamp
and every transition timestamp whose stage has order index at most that of
start_stage, and end_time is the minimum of the resolution timestamp and
every transition timestamp whose stage has order index at least that of
end_stage; on the spec's worked example the result is exactly 10 days. -/
theorem C1_cycle_time_boundaries :
    (∀ (issue : Issue) (start_stage end_stage : String) (resolution : Int)
        (start_idx end_idx : Nat),
      issue.resolutiondate = some resolution →
      stage_index start_stage = some start_idx →
      stage_index end_stage = some end_idx →
      (∀ p ∈ status_events issue, p.2 ∈ STAGE_ORDER) →
      get_cycle_time issue start_stage end_stage =
        .ok (((spec_end_time issue resolution end_idx -
               spec_start_time issue start_idx : Int) : ℚ) / 86400)) ∧
    get_cycle_time exampleIssue "Open" "Merged" = .ok 10 := by
  constructor
  · intro issue start_stage end_stage resolution start_idx end_idx hres hss hes hval
    have hval2 : ∀ record ∈ issue.histories, ∀ item ∈ record.items,
        item.field = "status" → (stage_index item.toStr).isSome := by
      intro record hrec item hitem hfield
      have hmem : (record.created, item.toStr) ∈ status_events issue := by
        rw [status_events]
        apply List.mem_flatten.mpr
        refine ⟨(record.items.filter (fun i => i.field = "status")).map
          (fun i => (record.created, i.toStr)), ?_, ?_⟩
        · exact List.mem_map_of_mem _ hrec
        · exact List.mem_map_of_mem _ (List.mem_filter.mpr ⟨hitem, by simp [hfield]⟩)
      exact (indexOf?_isSome_iff_mem STAGE_ORDER item.toStr).mpr (hval _ hmem)
    have hhist := get_cycle_time_histories_ok start_stage end_stage start_idx end_idx
      hss hes issue.histories (issue.created, resolution) hval2
    have hstart : spec_start_time issue start_idx =
        (List.foldl (bound_step start_idx end_idx) (issue.created, resolution)
          (histories_events issue.histories)).1 := by
      rw [spec_start_time, start_candidates_eq, indexed_events_status_events,
        bound_step_foldl_fst]
    have hend : spec_end_time issue resolution end_idx =
        (List.foldl (bound_step start_idx end_idx) (issue.created, resolution)
          (histories_events issue.histories)).2 := by
      rw [spec_end_time, end_candidates_eq, indexed_events_status_events,
        bound_step_foldl_snd]
    rw [get_cycle_time]
    simp only [hres, hhist]
    rw [hstart, hend]
  · have h : get_cycle_time exampleIssue "Open" "Merged" =
        .ok (((19 * 86400 - 9 * 86400 : Int) : ℚ) / 86400) := rfl
    rw [h]
    congr 1
    norm_num

/-- Witness for C1: on the worked example the spec boundaries are the
latest Open-or-earlier event at day 9 and the earliest Merged-or-later
event at day 19, and get_cycle_time agrees with the spec formula and
equals 10 days. -/
theorem C1_cycle_time_boundaries_witness :
    get_cycle_time exampleIssue "Open" "Merged" =
      .ok (((spec_end_time exampleIssue (24 * 86400) 10 -
             spec_start_time exampleIssue 4 : Int) : ℚ) / 86400) :=
  C1_cycle_time_boundaries.1 exampleIssue "Open" "Merged" (24 * 86400) 4 10
    rfl (by decide) (by decide) (by decide)

/-- On an item list containing a status item whose stage is unknown (with
the configured stages valid), the item loop fails with the ValueError of
some unknown stage. -/
lemma get_cycle_time_items_bad (start_stage end_stage : String)
    (start_idx end_idx : Nat)
    (hss : stage_index start_stage = some start_idx)
    (hes : stage_index end_stage = some end_idx) (created_time : Int) :
    ∀ (items : List HistoryItem) (st : Int × Int),
      (∃ item ∈ items, item.field = "status" ∧ stage_index item.toStr = none) →
      ∃ s, stage_index s = none ∧
        get_cycle_time_items start_stage end_stage created_time items st =
          .error (.valueError s) := by
  intro items
  induction items with
  | nil =>
    intro st hbad
    obtain ⟨item, h, _⟩ := hbad
    cases h
  | cons item rest ih =>
    intro st hbad
    by_cases hfield : item.field = "status"
    · cases hidx : stage_index item.toStr with
      | none =>
        refine ⟨item.toStr, hidx, ?_⟩
        rw [get_cycle_time_items, if_pos hfield]
        simp only [hidx]
      | some idx =>
        obtain ⟨witem, hw, hwf, hwn⟩ := hbad
        have hwrest : witem ∈ rest := by
          rcases List.mem_cons.mp hw with rfl | h
          · rw [hidx] at hwn; cases hwn
          · exact h
        rw [get_cycle_time_items, if_pos hfield]
        simp only [hidx, hss, hes]
        exact ih _ ⟨witem, hwrest, hwf, hwn⟩
    · obtain ⟨witem, hw, hwf, hwn⟩ := hbad
      have hwrest : witem ∈ rest := by
        rcases List.mem_cons.mp hw with rfl | h
        · exact absurd hwf hfield
        · exact h
      rw [get_cycle_time_items, if_neg hfield]
      exact ih st ⟨witem, hwrest, hwf, hwn⟩

/-- On a changelog containing a status item whose stage is unknown (with
the configured stages valid), the record loop fails with the ValueError of
some unknown stage. -/
lemma get_cycle_time_histories_bad (start_stage end_stage : String)
    (start_idx end_idx : Nat)
    (hss : stage_index start_stage = some start_idx)
    (hes : stage_index end_stage = some end_idx) :
    ∀ (histories : List HistoryRecord) (st : Int × Int),
      (∃ record ∈ histories, ∃ item ∈ record.items,
        item.field = "status" ∧ stage_index item.toStr = none) →
      ∃ s, stage_index s = none ∧
        get_cycle_time_histories start_stage end_stage histories st =
          .error (.valueError s) := by
  intro histories
  induction histories with
  | nil =>
    intro st hbad
    obtain ⟨record, h, _⟩ := hbad
    cases h
  | cons record rest ih =>
    intro st hbad
    by_cases hrec : ∃ item ∈ record.items,
        item.field = "status" ∧ stage_index item.toStr = none
    · obtain ⟨s, hs, herr⟩ := get_cycle_time_items_bad start_stage end_stage
        start_idx end_idx hss hes record.created record.items st hrec
      refine ⟨s, hs, ?_⟩
      rw [get_cycle_time_histories]
      simp only [herr]
    · have hvalrec : ∀ item ∈ record.items, item.field = "status" →
          (stage_index item.toStr).isSome := by
        intro item hitem hfield
        cases hidx : stage_index item.toStr with
        | none => exact absurd ⟨item, hitem, hfield, hidx⟩ hrec
        | some _ => rfl
      have hitems := get_cycle_time_items_ok start_stage end_stage start_idx end_idx
        hss hes record.created record.items st hvalrec
      rw [get_cycle_time_histories]
      simp only [hitems]
      obtain ⟨wrec, hwrec, hwbad⟩ := hbad
      have hwrest : wrec ∈ rest := by
        rcases List.mem_cons.mp hwrec with rfl | h
        · exact absurd hwbad hrec
        · exact h
      exact ih _ ⟨wrec, hwrest, hwbad⟩

/-- An issue whose per-issue computation fails makes the whole list
comprehension of calculate_cycle_time fail. -/
lemma get_cycle_times_mem_error (start_stage end_stage : String) (issue : Issue)
    (e : PyExc) :
    ∀ issues : List Issue, issue ∈ issues →
      get_cycle_time issue start_stage end_stage = .error e →
      ∃ e2, get_cycle_times start_stage end_stage issues = .error e2 := by
  intro issues
  induction issues with
  | nil => intro h; cases h
  | cons i rest ih =>
    intro hmem herr
    cases hcur : get_cycle_time i start_stage end_stage with
    | error e2 =>
      refine ⟨e2, ?_⟩
      rw [get_cycle_times]
      simp only [hcur]
    | ok q =>
      have hrest : issue ∈ rest := by
        rcases List.mem_cons.mp hmem with rfl | h
        · rw [hcur] at herr; cases herr
        · exact h
      obtain ⟨e2, h2⟩ := ih hrest herr
      refine ⟨e2, ?_⟩
      rw [get_cycle_times]
      simp only [hcur, h2]

/-- Claim C8: a transition referencing a stage name outside the fixed
stage order makes the cycle-time calculation fail with the ValueError of
an unknown stage (the event is not skipped), and an erroring issue makes
the aggregate calculate_cycle_time fail too, so the error surfaces to the
top of the call chain instead of being recovered. -/
theorem C8_unknown_stage_fatal :
    (∀ (issue : Issue) (start_stage end_stage : String) (resolution : Int)
        (start_idx end_idx : Nat),
      issue.resolutiondate = some resolution →
      stage_index start_stage = some start_idx →
      stage_index end_stage = some end_idx →
      (∃ p ∈ status_events issue, p.2 ∉ STAGE_ORDER) →
      ∃ s, s ∉ STAGE_ORDER ∧
        get_cycle_time issue start_stage end_stage = .error (.valueError s)) ∧
    (∀ (issues : List Issue) (start_stage end_stage : String) (issue : Issue)
        (e : PyExc),
      issue ∈ issues →
      get_cycle_time issue start_stage end_stage = .error e →
      ∃ e2, calculate_cycle_time issues start_stage end_stage = .error e2) := by
  constructor
  · intro issue start_stage end_stage resolution start_idx end_idx hres hss hes hbad
    obtain ⟨p, hp, hpnot⟩ := hbad
    rw [status_events] at hp
    obtain ⟨l, hl, hpl⟩ := List.mem_flatten.mp hp
    obtain ⟨record, hrec, rfl⟩ := List.mem_map.mp hl
    obtain ⟨item, hitemf, rfl⟩ := List.mem_map.mp hpl
    obtain ⟨hitem, hfieldb⟩ := List.mem_filter.mp hitemf
    have hfield : item.field = "status" := by simpa using hfieldb
    have hnone : stage_index item.toStr = none := by
      cases hidx : stage_index item.toStr with
      | none => rfl
      | some idx =>
        exact absurd ((indexOf?_isSome_iff_mem STAGE_ORDER item.toStr).mp
          (by rw [stage_index] at hidx; simp [stage_index, hidx])) hpnot
    obtain ⟨s, hs, herr⟩ := get_cycle_time_histories_bad start_stage end_stage
      start_idx end_idx hss hes issue.histories (issue.created, resolution)
      ⟨record, hrec, item, hitem, hfield, hnone⟩
    refine ⟨s, ?_, ?_⟩
    · intro hmem
      have := (indexOf?_isSome_iff_mem STAGE_ORDER s).mpr hmem
      rw [stage_index] at hs
      rw [hs] at this
      cases this
    · rw [get_cycle_time]
      simp only [hres, herr]
  · intro issues start_stage end_stage issue e hmem herr
    obtain ⟨e2, h2⟩ := get_cycle_times_mem_error start_stage end_stage issue e
      issues hmem herr
    refine ⟨e2, ?_⟩
    rw [calculate_cycle_time]
    simp only [h2]

/-- An issue with a transition to the stage QA, which is not in the stage
order. -/
def badStageIssue : Issue := ⟨0, some 86400, [⟨3600, [⟨"status", "QA"⟩]⟩]⟩

/-- Witness for C8: the QA transition makes get_cycle_time fail with a
ValueError naming a stage outside the stage order, and the aggregate over
the singleton list fails as well. -/
theorem C8_unknown_stage_fatal_witness :
    (∃ s, s ∉ STAGE_ORDER ∧
      get_cycle_time badStageIssue "Open" "Merged" = .error (.valueError s)) ∧
    (∃ e2, calculate_cycle_time [badStageIssue] "Open" "Merged" = .error e2) := by
  constructor
  · exact C8_unknown_stage_fatal.1 badStageIssue "Open" "Merged" 86400 4 10
      rfl (by decide) (by decide) ⟨(3600, "QA"), by decide, by decide⟩
  · exact C8_unknown_stage_fatal.2 [badStageIssue] "Open" "Merged" badStageIssue
      (.valueError "QA") (by simp) rfl

/-! ### Tabular upsert sink: jira_cycle_time_to_gsheet.py
update_google_sheets.

The worksheet is modelled as a grid of cells, each holding either a string
(headers and row labels) or a number (metric values written by the job).
The gspread calls used by the source are modelled as pure transformations
of the grid: row_values reads a row as displayed strings, insert_cols
inserts an empty column in every row, the update of range A1 overwrites
the first row, update_cell overwrites one cell, and get_all_values is the
identity snapshot of the grid. -/

/-- A spreadsheet cell value: a string or a number. -/
inductive Val where
  | str (s : String)
  | num (q : ℚ)
deriving DecidableEq, Repr

/-- The string gspread displays for a cell.  The theorems below compare
displayed values only against header and label cells, which their
hypotheses constrain to be string cells, so the rendering of numbers is
left abstract as a fixed placeholder. -/
def dispVal : Val → String
  | .str s => s
  | .num _ => "#NUM"

/-- A worksheet: a list of rows of cells. -/
abbrev Grid := List (List Val)

/-- Model of sheet.row_values(row): the displayed values of the 1-indexed
row. -/
def grid_row_values (g : Grid) (row : Nat) : List String :=
  (g.getD (row - 1) []).map dispVal

/-- Model of sheet.insert_cols(col): insert an empty cell at 1-indexed
column col of every row. -/
def grid_insert_cols (g : Grid) (col : Nat) : Grid :=
  g.map (fun r => r.insertIdx (col - 1) (Val.str ""))

/-- Model of sheet.update("A1", [values]): overwrite the first row with
the given strings, keeping any cells beyond them. -/
def grid_update_row1 (g : Grid) (values : List String) : Grid :=
  g.set 0 (values.map Val.str ++ (g.getD 0 []).drop values.length)

/-- Model of sheet.update_cell(row, col, value), 1-indexed: pad the row so
the column exists, then overwrite the cell. -/
def grid_update_cell (g : Grid) (row col : Nat) (value : Val) : Grid :=
  let r := g.getD (row - 1) []
  let r := r ++ List.replicate (col - r.length) (Val.str "")
  g.set (row - 1) (r.set (col - 1) value)

/-- Model of jira_cycle_time_to_gsheet.update_google_sheets.  headers is
row 1; when the month label is absent the label is inserted at list
position 1 (the second position), an empty column is inserted at sheet
column 2 and row 1 is rewritten, so in-memory headers and sheet agree.
The column is located by the first index of the month label; the data
snapshot is read once; for every dataframe row, the first grid row whose
first cell displays the row's Type label receives the value, and rows
without a match are skipped.  The in-memory padding of the snapshot in
the source only feeds the single cell write and is modelled by the
padding inside grid_update_cell. -/
def update_google_sheets (g : Grid) (dataframe : List (String × ℚ))
    (month_converted : String) : Grid :=
  let headers0 := grid_row_values g 1
  let hp : List String × Grid :=
    if month_converted ∈ headers0 then (headers0, g)
    else
      let headers1 := headers0.insertIdx 1 month_converted
      (headers1, grid_update_row1 (grid_insert_cols g 2) headers1)
  let headers := hp.1
  let g1 := hp.2
  let column := headers.indexOf month_converted + 1
  let data := g1
  dataframe.foldl (fun gcur row =>
    let type_rows := (List.range data.length).filter
      (fun i => (grid_row_values data (i + 1)).getD 0 "" = row.1)
    match type_rows with
    | [] => gcur
    | row_index :: _ => grid_update_cell gcur (row_index + 1) column (Val.num row.2)) g1

/-- Filtering the range of n by a predicate that holds exactly at one
index below n yields that singleton index. -/
lemma filter_range_unique (p : Nat → Bool) (n i0 : Nat) (hi0 : i0 < n)
    (hp : ∀ j, j < n → (p j = true ↔ j = i0)) :
    (List.range n).filter p = [i0] := by
  induction n with
  | zero => omega
  | succ m ih =>
    rw [List.range_succ, List.filter_append]
    by_cases hlast : i0 = m
    · subst hlast
      have hnone : (List.range i0).filter p = [] := by
        apply List.filter_eq_nil_iff.mpr
        intro j hj hpj
        have hjlt : j < i0 := List.mem_range.mp hj
        have := (hp j (by omega)).mp hpj
        omega
      have hpm : p i0 = true := (hp i0 (by omega)).mpr rfl
      simp [hnone, hpm]
    · have hi0m : i0 < m := by omega
      have hpm : p m = false := by
        by_cases hb : p m = true
        · exact absurd ((hp m (by omega)).mp hb) (by omega)
        · simpa using hb
      rw [ih hi0m (fun j hj => hp j (by omega))]
      simp [hpm]

/-- Reading an index just overwritten yields the new value. -/
lemma getD_set_self_of_lt {α : Type} (l : List α) (i : Nat) (x d : α)
    (h : i < l.length) : (l.set i x).getD i d = x := by
  rw [List.getD_eq_getElem?_getD, List.getElem?_set_self h]
  rfl

/-- Reading another index after an overwrite is unchanged. -/
lemma getD_set_of_ne {α : Type} (l : List α) (i j : Nat) (x d : α)
    (h : i ≠ j) : (l.set i x).getD j d = l.getD j d := by
  rw [List.getD_eq_getElem?_getD, List.getD_eq_getElem?_getD,
    List.getElem?_set_ne h]

/-- The displayed first cell of a row ignores a write to its second
cell. -/
lemma first_disp_set_ne (row : List Val) (v : Val) :
    ((row.set 1 v).map dispVal).getD 0 "" = (row.map dispVal).getD 0 "" := by
  rw [List.getD_eq_getElem?_getD, List.getD_eq_getElem?_getD,
    List.getElem?_map, List.getElem?_map, List.getElem?_set_ne (by omega)]

/-- A cell write keeps the number of rows. -/
lemma grid_update_cell_length (g : Grid) (row col : Nat) (v : Val) :
    (grid_update_cell g row col v).length = g.length := by
  simp [grid_update_cell]

/-- A cell write leaves every other row unchanged. -/
lemma grid_update_cell_getD_ne (g : Grid) (row col : Nat) (v : Val) (i : Nat)
    (hne : row - 1 ≠ i) :
    (grid_update_cell g row col v).getD i [] = g.getD i [] := by
  simp only [grid_update_cell]
  exact getD_set_of_ne _ _ _ _ _ hne

/-- A cell write on a row already wide enough replaces just that cell of
that row. -/
lemma grid_update_cell_getD_self (g : Grid) (row col : Nat) (v : Val)
    (hrow : row - 1 < g.length) (hcol : col ≤ (g.getD (row - 1) []).length) :
    (grid_update_cell g row col v).getD (row - 1) [] =
      (g.getD (row - 1) []).set (col - 1) v := by
  simp only [grid_update_cell]
  rw [getD_set_self_of_lt _ _ _ _ hrow]
  have hpad : col - (g.getD (row - 1) []).length = 0 := by omega
  rw [hpad]
  simp

/-- Writing the same cell twice keeps only the last value. -/
lemma grid_update_cell_twice (g : Grid) (row col : Nat) (a b : Val)
    (hrow : row - 1 < g.length) :
    grid_update_cell (grid_update_cell g row col a) row col b =
      grid_update_cell g row col b := by
  simp only [grid_update_cell]
  rw [getD_set_self_of_lt _ _ _ _ hrow]
  have hlen : ((g.getD (row - 1) [] ++
      List.replicate (col - (g.getD (row - 1) []).length) (Val.str "")).set
        (col - 1) a).length =
      (g.getD (row - 1) []).length + (col - (g.getD (row - 1) []).length) := by
    simp
  rw [hlen]
  have hpad : col - ((g.getD (row - 1) []).length +
      (col - (g.getD (row - 1) []).length)) = 0 := by omega
  rw [hpad]
  simp only [List.replicate_zero, List.append_nil]
  rw [List.set_set, List.set_set]

/-- Characterization of one upsert run on a ledger that already carries
the month column: with the month at header position 1 and the row label
matching exactly the row i0, the run writes exactly the one cell at
(i0 + 1, 2). -/
lemma upsert_run_present (G : Grid) (label month : String) (v : ℚ)
    (headers1 : List String) (i0 : Nat)
    (hG0 : G.getD 0 [] = headers1.map Val.str)
    (hmem : month ∈ headers1)
    (hidx : headers1.indexOf month = 1)
    (hi0 : i0 < G.length)
    (huniq : ∀ j, j < G.length →
      ((grid_row_values G (j + 1)).getD 0 "" = label ↔ j = i0)) :
    update_google_sheets G [(label, v)] month =
      grid_update_cell G (i0 + 1) 2 (Val.num v) := by
  have hrow1 : grid_row_values G 1 = headers1 := by
    show (G.getD 0 []).map dispVal = headers1
    rw [hG0, List.map_map]
    have hcomp : dispVal ∘ Val.str = id := by funext s; rfl
    rw [hcomp, List.map_id]
  have htr : (List.range G.length).filter
      (fun i => decide ((grid_row_values G (i + 1)).getD 0 "" = label)) = [i0] := by
    apply filter_range_unique _ _ _ hi0
    intro j hj
    simpa using huniq j hj
  simp only [update_google_sheets, hrow1]
  rw [if_pos hmem]
  simp only [List.foldl_cons, List.foldl_nil]
  rw [htr, hidx]

/-- Characterization of one upsert run on a ledger that does not yet
carry the month column: the month header is inserted at position 1, every
row gains an empty cell at sheet column 2, row 1 is rewritten to the new
headers, and the single dataframe row is written to the one cell at
(i0 + 1, 2); the resulting grid satisfies the invariants the second run
relies on. -/
lemma upsert_run_absent (g : Grid) (label month : String) (v : ℚ) (w i0 : Nat)
    (headers1 : List String) (G1 : Grid)
    (hh1 : headers1 = (grid_row_values g 1).insertIdx 1 month)
    (hG1 : G1 = grid_update_row1 (grid_insert_cols g 2) headers1)
    (hw : 1 ≤ w)
    (hrect : ∀ row ∈ g, row.length = w)
    (hg : g ≠ [])
    (hmonth : month ∉ grid_row_values g 1)
    (hA1 : (grid_row_values g 1).getD 0 "" ≠ label)
    (hi0 : i0 < g.length)
    (hlab : (grid_row_values g (i0 + 1)).getD 0 "" = label)
    (huniq : ∀ j, j < g.length →
      (grid_row_values g (j + 1)).getD 0 "" = label → j = i0) :
    update_google_sheets g [(label, v)] month =
      grid_update_cell G1 (i0 + 1) 2 (Val.num v) ∧
    G1.getD 0 [] = headers1.map Val.str ∧
    G1.length = g.length ∧
    headers1.indexOf month = 1 ∧
    month ∈ headers1 ∧
    headers1.count month = 1 ∧
    1 ≤ i0 ∧
    (G1.getD i0 []).length = w + 1 ∧
    (∀ j, j < g.length →
      ((grid_row_values G1 (j + 1)).getD 0 "" = label ↔ j = i0)) := by
  obtain ⟨r0, grest, rfl⟩ := List.exists_cons_of_ne_nil hg
  have hr0len : r0.length = w := hrect r0 (by simp)
  obtain ⟨c0, r0t, rfl⟩ : ∃ c0 r0t, r0 = c0 :: r0t := by
    cases r0 with
    | nil => simp at hr0len; omega
    | cons a t => exact ⟨a, t, rfl⟩
  have hrow1g : grid_row_values ((c0 :: r0t) :: grest) 1 =
      dispVal c0 :: r0t.map dispVal := rfl
  rw [hrow1g] at hh1 hmonth hA1
  have hh1c : headers1 = dispVal c0 :: month :: r0t.map dispVal := by
    rw [hh1, List.insertIdx_succ_cons, List.insertIdx_zero]
  have hA1c : dispVal c0 ≠ label := by simpa using hA1
  have hc0month : dispVal c0 ≠ month := fun he => hmonth (he ▸ List.mem_cons_self _ _)
  have hmonthht : month ∉ r0t.map dispVal :=
    fun h => hmonth (List.mem_cons_of_mem _ h)
  have hidx : headers1.indexOf month = 1 := by
    rw [hh1c, List.indexOf_cons_ne _ hc0month, List.indexOf_cons_self]
  have hmem : month ∈ headers1 := by rw [hh1c]; simp
  have hcount : headers1.count month = 1 := by
    rw [hh1c, List.count_cons_of_ne (fun he => hc0month he.symm),
      List.count_cons_self, List.count_eq_zero.mpr hmonthht]
  have hins : grid_insert_cols ((c0 :: r0t) :: grest) 2 =
      (c0 :: Val.str "" :: r0t) ::
        grest.map (fun r => r.insertIdx 1 (Val.str "")) := rfl
  have hh1len : headers1.length = r0t.length + 2 := by
    rw [hh1c]
    simp
  have hG1c : G1 = headers1.map Val.str ::
      grest.map (fun r => r.insertIdx 1 (Val.str "")) := by
    rw [hG1, hins, grid_update_row1]
    have hget0 : ((c0 :: Val.str "" :: r0t) ::
        grest.map (fun r => r.insertIdx 1 (Val.str ""))).getD 0 [] =
        c0 :: Val.str "" :: r0t := rfl
    rw [hget0]
    have hdrop : (c0 :: Val.str "" :: r0t).drop headers1.length = [] := by
      have hlen2 : headers1.length = (c0 :: Val.str "" :: r0t).length := by
        rw [hh1len, List.length_cons, List.length_cons]
      rw [hlen2, List.drop_length]
    rw [hdrop, List.append_nil]
    rfl
  have hG1len : G1.length = ((c0 :: r0t) :: grest).length := by
    rw [hG1c]
    simp
  have hi0pos : 1 ≤ i0 := by
    rcases Nat.eq_zero_or_pos i0 with h0 | h1
    · subst h0
      exact absurd (by simpa [hrow1g] using hlab) hA1c
    · exact h1
  have hfirstcell : ∀ j, j + 1 < ((c0 :: r0t) :: grest).length →
      (grid_row_values G1 (j + 2)).getD 0 "" =
        (grid_row_values ((c0 :: r0t) :: grest) (j + 2)).getD 0 "" := by
    intro j hj
    have hjg : j < grest.length := by simpa using hj
    have hgetd_eq : grest.getD j [] = grest[j] := by
      rw [List.getD_eq_getElem?_getD, List.getElem?_eq_getElem hjg]
      rfl
    have hrowmem : grest.getD j [] ∈ (c0 :: r0t) :: grest := by
      rw [hgetd_eq]
      exact List.mem_cons_of_mem _ (List.getElem_mem hjg)
    have hrlen : (grest.getD j []).length = w := hrect _ hrowmem
    obtain ⟨d0, dt, hd⟩ : ∃ d0 dt, grest.getD j [] = d0 :: dt := by
      cases hrow : grest.getD j [] with
      | nil => rw [hrow] at hrlen; simp at hrlen; omega
      | cons a t => exact ⟨a, t, rfl⟩
    have hG1row : G1.getD (j + 1) [] = d0 :: Val.str "" :: dt := by
      rw [hG1c]
      show (grest.map (fun r => r.insertIdx 1 (Val.str ""))).getD j [] =
        d0 :: Val.str "" :: dt
      rw [List.getD_eq_getElem?_getD, List.getElem?_map,
        List.getElem?_eq_getElem hjg]
      show (grest[j].insertIdx 1 (Val.str "")) = d0 :: Val.str "" :: dt
      rw [← hgetd_eq, hd, List.insertIdx_succ_cons, List.insertIdx_zero]
    have hgrow : ((c0 :: r0t) :: grest).getD (j + 1) [] = d0 :: dt := by
      show grest.getD j [] = d0 :: dt
      exact hd
    show ((G1.getD (j + 1) []).map dispVal).getD 0 "" =
      ((((c0 :: r0t) :: grest).getD (j + 1) []).map dispVal).getD 0 ""
    rw [hG1row, hgrow]
    rfl
  have hrow1G1 : grid_row_values G1 1 = headers1 := by
    show (G1.getD 0 []).map dispVal = headers1
    rw [hG1c]
    show (headers1.map Val.str).map dispVal = headers1
    rw [List.map_map]
    have hcomp : dispVal ∘ Val.str = id := by funext s; rfl
    rw [hcomp, List.map_id]
  have hiff : ∀ j, j < ((c0 :: r0t) :: grest).length →
      ((grid_row_values G1 (j + 1)).getD 0 "" = label ↔ j = i0) := by
    intro j hj
    cases j with
    | zero =>
      constructor
      · intro hcell
        rw [hrow1G1, hh1c] at hcell
        exact absurd (by simpa using hcell) hA1c
      · intro h0
        exact absurd h0.symm (by omega)
    | succ j' =>
      rw [hfirstcell j' hj]
      constructor
      · intro hcell
        exact huniq (j' + 1) hj hcell
      · intro he
        subst he
        exact hlab
  have hwidth : (G1.getD i0 []).length = w + 1 := by
    obtain ⟨j', hj'⟩ : ∃ j', i0 = j' + 1 := ⟨i0 - 1, by omega⟩
    have hjg : j' < grest.length := by
      have := hi0
      rw [hj'] at this
      simpa using this
    have hgetd_eq : grest.getD j' [] = grest[j'] := by
      rw [List.getD_eq_getElem?_getD, List.getElem?_eq_getElem hjg]
      rfl
    have hrowmem : grest.getD j' [] ∈ (c0 :: r0t) :: grest := by
      rw [hgetd_eq]
      exact List.mem_cons_of_mem _ (List.getElem_mem hjg)
    have hrlen : (grest.getD j' []).length = w := hrect _ hrowmem
    obtain ⟨d0, dt, hd⟩ : ∃ d0 dt, grest.getD j' [] = d0 :: dt := by
      cases hrow : grest.getD j' [] with
      | nil => rw [hrow] at hrlen; simp at hrlen; omega
      | cons a t => exact ⟨a, t, rfl⟩
    have hG1row : G1.getD (j' + 1) [] = d0 :: Val.str "" :: dt := by
      rw [hG1c]
      show (grest.map (fun r => r.insertIdx 1 (Val.str ""))).getD j' [] =
        d0 :: Val.str "" :: dt
      rw [List.getD_eq_getElem?_getD, List.getElem?_map,
        List.getElem?_eq_getElem hjg]
      show (grest[j'].insertIdx 1 (Val.str "")) = d0 :: Val.str "" :: dt
      rw [← hgetd_eq, hd, List.insertIdx_succ_cons, List.insertIdx_zero]
    rw [hj', hG1row]
    have hdt : dt.length + 1 = w := by
      rw [hd] at hrlen
      simpa using hrlen
    rw [List.length_cons, List.length_cons]
    omega
  refine ⟨?_, ?_, hG1len, hidx, hmem, hcount, hi0pos, hwidth, hiff⟩
  · have htr : (List.range G1.length).filter
        (fun i => decide ((grid_row_values G1 (i + 1)).getD 0 "" = label)) = [i0] := by
      apply filter_range_unique _ _ _ (by rw [hG1len]; exact hi0)
      intro j hj
      rw [hG1len] at hj
      simpa using hiff j hj
    simp only [update_google_sheets, hrow1g]
    rw [if_neg hmonth]
    simp only [List.foldl_cons, List.foldl_nil]
    have hhead_eq : (dispVal c0 :: r0t.map dispVal).insertIdx 1 month = headers1 :=
      hh1.symm
    rw [hhead_eq]
    have hbody_eq : grid_update_row1
        (grid_insert_cols ((c0 :: r0t) :: grest) 2) headers1 = G1 := hG1.symm
    rw [hbody_eq, htr, hidx]
  · rw [hG1c]
    rfl

/-- The invariants of the inserted ledger survive the single cell write:
row counts, the header row, the unique labelled row, and the written
row's cell are all as expected. -/
lemma upsert_written_invariants (G1 : Grid) (headers1 : List String)
    (label : String) (v : ℚ) (w i0 n : Nat)
    (hrow0 : G1.getD 0 [] = headers1.map Val.str)
    (hlen : G1.length = n)
    (hi0pos : 1 ≤ i0)
    (hi0 : i0 < n)
    (hw : 1 ≤ w)
    (hwidth : (G1.getD i0 []).length = w + 1)
    (hiffG1 : ∀ j, j < n →
      ((grid_row_values G1 (j + 1)).getD 0 "" = label ↔ j = i0)) :
    (grid_update_cell G1 (i0 + 1) 2 (Val.num v)).length = n ∧
    (grid_update_cell G1 (i0 + 1) 2 (Val.num v)).getD 0 [] = headers1.map Val.str ∧
    grid_row_values (grid_update_cell G1 (i0 + 1) 2 (Val.num v)) 1 = headers1 ∧
    (grid_update_cell G1 (i0 + 1) 2 (Val.num v)).getD i0 [] =
      (G1.getD i0 []).set 1 (Val.num v) ∧
    (∀ j, j < n →
      ((grid_row_values (grid_update_cell G1 (i0 + 1) 2 (Val.num v)) (j + 1)).getD
        0 "" = label ↔ j = i0)) := by
  have hlen2 : (grid_update_cell G1 (i0 + 1) 2 (Val.num v)).length = n := by
    rw [grid_update_cell_length, hlen]
  have hrow0W : (grid_update_cell G1 (i0 + 1) 2 (Val.num v)).getD 0 [] =
      headers1.map Val.str := by
    have h := grid_update_cell_getD_ne G1 (i0 + 1) 2 (Val.num v) 0 (by omega)
    rw [h, hrow0]
  have hcell : (grid_update_cell G1 (i0 + 1) 2 (Val.num v)).getD i0 [] =
      (G1.getD i0 []).set 1 (Val.num v) := by
    have := grid_update_cell_getD_self G1 (i0 + 1) 2 (Val.num v)
      (by rw [show i0 + 1 - 1 = i0 from rfl, hlen]; exact hi0)
      (by rw [show i0 + 1 - 1 = i0 from rfl, hwidth]; omega)
    rw [show i0 + 1 - 1 = i0 from rfl] at this
    exact this
  have hrow1W : grid_row_values (grid_update_cell G1 (i0 + 1) 2 (Val.num v)) 1 =
      headers1 := by
    show ((grid_update_cell G1 (i0 + 1) 2 (Val.num v)).getD 0 []).map dispVal =
      headers1
    rw [hrow0W, List.map_map]
    have hcomp : dispVal ∘ Val.str = id := by funext s; rfl
    rw [hcomp, List.map_id]
  refine ⟨hlen2, hrow0W, hrow1W, hcell, ?_⟩
  intro j hj
  by_cases hji : j = i0
  · subst hji
    have hcellval : (grid_row_values (grid_update_cell G1 (j + 1) 2 (Val.num v))
        (j + 1)).getD 0 "" = label := by
      show (((grid_update_cell G1 (j + 1) 2 (Val.num v)).getD j []).map
        dispVal).getD 0 "" = label
      rw [hcell, first_disp_set_ne]
      exact (hiffG1 j hj).mpr rfl
    exact ⟨fun _ => rfl, fun _ => hcellval⟩
  · show (((grid_update_cell G1 (i0 + 1) 2 (Val.num v)).getD j []).map
      dispVal).getD 0 "" = label ↔ j = i0
    have h := grid_update_cell_getD_ne G1 (i0 + 1) 2 (Val.num v) j (by omega)
    rw [h]
    exact hiffG1 j hj

/-- Two upsert runs in sequence for the same row and month labels, the
second with the last value. -/
def upsert_twice (g : Grid) (label : String) (v1 v2 : ℚ) (month : String) : Grid :=
  update_google_sheets (update_google_sheets g [(label, v1)] month)
    [(label, v2)] month

/-- Claim C2: on a well-formed ledger whose header row does not yet carry
the month label and whose label column matches the row label exactly once
(below a string-only header row), running the upsert twice for the same
(row label, month) pair produces the same final grid as running it once
with the last value; afterwards exactly one header cell carries the month
label, exactly one row carries the row label, and the written cell holds
the last value, overwritten rather than accumulated. -/
theorem C2_upsert_idempotent
    (g : Grid) (label month : String) (v1 v2 : ℚ) (w i0 : Nat)
    (hw : 1 ≤ w)
    (hrect : ∀ row ∈ g, row.length = w)
    (hg : g ≠ [])
    (hmonth : month ∉ grid_row_values g 1)
    (hA1 : (grid_row_values g 1).getD 0 "" ≠ label)
    (hi0 : i0 < g.length)
    (hlab : (grid_row_values g (i0 + 1)).getD 0 "" = label)
    (huniq : ∀ j, j < g.length →
      (grid_row_values g (j + 1)).getD 0 "" = label → j = i0) :
    upsert_twice g label v1 v2 month =
      update_google_sheets g [(label, v2)] month ∧
    (grid_row_values (upsert_twice g label v1 v2 month) 1).count month = 1 ∧
    ((List.range (upsert_twice g label v1 v2 month).length).filter
      (fun j => (grid_row_values (upsert_twice g label v1 v2 month) (j + 1)).getD
        0 "" = label)).length = 1 ∧
    ((upsert_twice g label v1 v2 month).getD i0 []).getD 1 (Val.str "") =
      Val.num v2 := by
  obtain ⟨e1, hrow0, hlen, hidx, hmem, hcount, hi0pos, hwidth, hiffG1⟩ :=
    upsert_run_absent g label month v1 w i0
      ((grid_row_values g 1).insertIdx 1 month)
      (grid_update_row1 (grid_insert_cols g 2)
        ((grid_row_values g 1).insertIdx 1 month))
      rfl rfl hw hrect hg hmonth hA1 hi0 hlab huniq
  obtain ⟨e2, -, -, -, -, -, -, -, -⟩ :=
    upsert_run_absent g label month v2 w i0
      ((grid_row_values g 1).insertIdx 1 month)
      (grid_update_row1 (grid_insert_cols g 2)
        ((grid_row_values g 1).insertIdx 1 month))
      rfl rfl hw hrect hg hmonth hA1 hi0 hlab huniq
  obtain ⟨hW1len, hW1row0, hW1row1, hW1cell, hW1iff⟩ :=
    upsert_written_invariants
      (grid_update_row1 (grid_insert_cols g 2)
        ((grid_row_values g 1).insertIdx 1 month))
      ((grid_row_values g 1).insertIdx 1 month) label v1 w i0 g.length
      hrow0 hlen hi0pos hi0 hw hwidth hiffG1
  have hrun2 : upsert_twice g label v1 v2 month =
      grid_update_cell
        (grid_update_cell
          (grid_update_row1 (grid_insert_cols g 2)
            ((grid_row_values g 1).insertIdx 1 month)) (i0 + 1) 2 (Val.num v1))
        (i0 + 1) 2 (Val.num v2) := by
    rw [upsert_twice, e1]
    exact upsert_run_present _ label month v2
      ((grid_row_values g 1).insertIdx 1 month) i0 hW1row0 hmem hidx
      (by rw [hW1len]; exact hi0)
      (fun j hj => hW1iff j (by rwa [hW1len] at hj))
  have hcollapse : upsert_twice g label v1 v2 month =
      grid_update_cell
        (grid_update_row1 (grid_insert_cols g 2)
          ((grid_row_values g 1).insertIdx 1 month)) (i0 + 1) 2 (Val.num v2) := by
    rw [hrun2]
    exact grid_update_cell_twice _ _ _ _ _
      (by rw [show i0 + 1 - 1 = i0 from rfl, hlen]; exact hi0)
  obtain ⟨hW2len, hW2row0, hW2row1, hW2cell, hW2iff⟩ :=
    upsert_written_invariants
      (grid_update_row1 (grid_insert_cols g 2)
        ((grid_row_values g 1).insertIdx 1 month))
      ((grid_row_values g 1).insertIdx 1 month) label v2 w i0 g.length
      hrow0 hlen hi0pos hi0 hw hwidth hiffG1
  refine ⟨?_, ?_, ?_, ?_⟩
  · rw [hcollapse, e2]
  · rw [hcollapse, hW2row1]
    exact hcount
  · rw [hcollapse]
    have htr : (List.range (grid_update_cell
        (grid_update_row1 (grid_insert_cols g 2)
          ((grid_row_values g 1).insertIdx 1 month)) (i0 + 1) 2
        (Val.num v2)).length).filter
        (fun j => decide ((grid_row_values (grid_update_cell
          (grid_update_row1 (grid_insert_cols g 2)
            ((grid_row_values g 1).insertIdx 1 month)) (i0 + 1) 2
          (Val.num v2)) (j + 1)).getD 0 "" = label)) = [i0] := by
      rw [hW2len]
      apply filter_range_unique _ _ _ hi0
      intro j hj
      simpa using hW2iff j hj
    rw [htr]
    rfl
  · rw [hcollapse, hW2cell]
    exact getD_set_self_of_lt _ _ _ _ (by rw [hwidth]; omega)

/-- Witness for C2: on a two-row ledger with header cell Type and row
label Alice, writing 5 for March 2024 twice equals writing it once, with
one March 2024 header cell, one Alice row, and the cell holding 5. -/
theorem C2_upsert_idempotent_witness :
    upsert_twice [[Val.str "Type"], [Val.str "Alice"]] "Alice" 5 5 "March 2024" =
      update_google_sheets [[Val.str "Type"], [Val.str "Alice"]]
        [("Alice", 5)] "March 2024" ∧
    (grid_row_values (upsert_twice [[Val.str "Type"], [Val.str "Alice"]]
      "Alice" 5 5 "March 2024") 1).count "March 2024" = 1 ∧
    ((List.range (upsert_twice [[Val.str "Type"], [Val.str "Alice"]]
        "Alice" 5 5 "March 2024").length).filter
      (fun j => (grid_row_values (upsert_twice [[Val.str "Type"], [Val.str "Alice"]]
        "Alice" 5 5 "March 2024") (j + 1)).getD 0 "" = "Alice")).length = 1 ∧
    ((upsert_twice [[Val.str "Type"], [Val.str "Alice"]] "Alice" 5 5
      "March 2024").getD 1 []).getD 1 (Val.str "") = Val.num 5 :=
  C2_upsert_idempotent [[Val.str "Type"], [Val.str "Alice"]] "Alice" "March 2024"
    5 5 1 1 (by omega) (by decide) (by decide) (by decide) (by decide)
    (by decide) (by decide)
    (fun j hj hcell => by
      have h2 : j < 2 := hj
      have hcases : j = 0 ∨ j = 1 := by omega
      rcases hcases with rfl | rfl
      · exact absurd hcell (by decide)
      · rfl)

end SdlcMetrics
